import Mathlib

/-!
Verification of the process-supervision and recording-session core of
RTSP-to-HLS-for-SkyMonitor (`src/app/rtsp.py`, `src/app/recorder.py`,
with `src/app/config.py` as intent evidence for root resolution).

External effects (subprocess spawn/terminate/wait/kill, filesystem
existence checks, the wall clock and the random session-id source) are
modelled as explicit environment parameters; the mutable manager objects
become explicit state records.  Paths are modelled structurally (an
absolute flag plus a component list), mirroring `pathlib.Path` for the
operations the code uses (`/`, `.parent`, `.is_absolute()`).
-/

/-- Structural model of `pathlib.Path`: absolute flag plus components. -/
structure PyPath where
  absolute : Bool
  components : List String
deriving DecidableEq, Repr

namespace PyPath

/-- `p / q` for a path right operand (`pathlib` replaces `p` when `q` is absolute). -/
def div (p q : PyPath) : PyPath :=
  if q.absolute then q else { p with components := p.components ++ q.components }

/-- `p / s` for a single relative component `s`. -/
def divS (p : PyPath) (s : String) : PyPath :=
  { p with components := p.components ++ [s] }

/-- `p.parent` (drops the last component; the parent of a root is itself). -/
def parent (p : PyPath) : PyPath :=
  { p with components := p.components.dropLast }

/-- `p.is_absolute()`. -/
def is_absolute (p : PyPath) : Bool := p.absolute

theorem divS_inj_right {p : PyPath} {s t : String} (h : p.divS s = p.divS t) : s = t := by
  have hc : p.components ++ [s] = p.components ++ [t] := congrArg components h
  have := List.append_cancel_left hc
  simpa using this

end PyPath

/-- Association-list lookup, modelling Python `dict.get` / `d[k]`. -/
def lookupA {β : Type} (l : List (String × β)) (k : String) : Option β :=
  (l.find? (fun p => p.1 = k)).map (·.2)

/-- Association-list lookup with default, modelling `dict.get(k, default)`. -/
def lookupD {β : Type} (l : List (String × β)) (k : String) (d : β) : β :=
  (lookupA l k).getD d

/-- Association-list update, modelling `d[k] = v` (replaces in place, else appends:
Python dicts keep the original key position on overwrite). -/
def setA {β : Type} (l : List (String × β)) (k : String) (v : β) : List (String × β) :=
  if l.any (fun p => p.1 = k) then
    l.map (fun p => if p.1 = k then (k, v) else p)
  else l ++ [(k, v)]

/-- Association-list removal, modelling `d.pop(k, default)`'s effect on the dict. -/
def popA {β : Type} (l : List (String × β)) (k : String) : List (String × β) :=
  l.filter (fun p => p.1 ≠ k)

/-- Python `str.strip()` with no argument: drop leading and trailing
whitespace characters. -/
def pyStrip (s : String) : String :=
  ⟨((s.data.dropWhile Char.isWhitespace).reverse.dropWhile Char.isWhitespace).reverse⟩

/-- Key membership of an association list (`k in d`). -/
def memA {β : Type} (l : List (String × β)) (k : String) : Bool :=
  l.any (fun p => p.1 = k)

theorem lookupA_setA_map {β : Type} (l : List (String × β)) (k k' : String) (v : β)
    (h : k' ≠ k) :
    lookupA (l.map (fun p => if p.1 = k then (k, v) else p)) k' = lookupA l k' := by
  induction l with
  | nil => rfl
  | cons a l ih =>
    by_cases ha : a.1 = k
    · have h1 : ((if a.1 = k then (k, v) else a) : String × β) = (k, v) := if_pos ha
      unfold lookupA
      rw [List.map_cons, h1,
        List.find?_cons_of_neg _ (by simpa using fun hk => h hk.symm),
        List.find?_cons_of_neg _ (by simp [ha]; exact fun hk => h hk.symm)]
      exact ih
    · have h1 : ((if a.1 = k then (k, v) else a) : String × β) = a := if_neg ha
      unfold lookupA
      rw [List.map_cons, h1]
      by_cases hk' : a.1 = k'
      · rw [List.find?_cons_of_pos _ (by simpa using hk'),
          List.find?_cons_of_pos _ (by simpa using hk')]
      · rw [List.find?_cons_of_neg _ (by simpa using hk'),
          List.find?_cons_of_neg _ (by simpa using hk')]
        exact ih

theorem lookupA_eq_none {β : Type} (l : List (String × β)) (k : String)
    (h : l.any (fun p => p.1 = k) = false) : lookupA l k = none := by
  unfold lookupA
  rw [List.find?_eq_none.mpr]
  · rfl
  · intro p hp hpk
    have h' : l.any (fun p => decide (p.1 = k)) = true := List.any_eq_true.mpr ⟨p, hp, hpk⟩
    rw [h'] at h
    cases h

theorem lookupA_setA_self {β : Type} (l : List (String × β)) (k : String) (v : β) :
    lookupA (setA l k v) k = some v := by
  unfold setA
  split
  case isTrue h =>
    induction l with
    | nil => cases h
    | cons a l ih =>
      by_cases ha : a.1 = k
      · have h1 : ((if a.1 = k then (k, v) else a) : String × β) = (k, v) := if_pos ha
        unfold lookupA
        rw [List.map_cons, h1, List.find?_cons_of_pos _ (by simp)]
        rfl
      · have h1 : ((if a.1 = k then (k, v) else a) : String × β) = a := if_neg ha
        unfold lookupA
        rw [List.map_cons, h1, List.find?_cons_of_neg _ (by simpa using ha)]
        have h' : l.any (fun p => p.1 = k) = true := by
          rcases List.any_eq_true.mp h with ⟨p, hp, hk⟩
          rcases List.mem_cons.mp hp with hp | hp
          · exact absurd (by simpa [hp] using hk) ha
          · exact List.any_eq_true.mpr ⟨p, hp, hk⟩
        exact ih h'
  case isFalse h =>
    unfold lookupA
    have hnone : List.find? (fun p => decide (p.1 = k)) l = none := by
      rw [List.find?_eq_none]
      intro p hp hpk
      exact absurd (List.any_eq_true.mpr ⟨p, hp, hpk⟩) h
    rw [List.find?_append, hnone]
    simp

theorem lookupA_setA_ne {β : Type} (l : List (String × β)) (k k' : String) (v : β)
    (h : k' ≠ k) : lookupA (setA l k v) k' = lookupA l k' := by
  unfold setA
  split
  · exact lookupA_setA_map l k k' v h
  · unfold lookupA
    rw [List.find?_append]
    cases hl : List.find? (fun p => decide (p.1 = k')) l with
    | some p => rfl
    | none =>
      simp only [Option.none_or]
      rw [List.find?_cons_of_neg _ (by simpa using fun hk => h hk.symm)]
      rfl

theorem lookupA_popA_self {β : Type} (l : List (String × β)) (k : String) :
    lookupA (popA l k) k = none := by
  unfold lookupA popA
  rw [List.find?_eq_none.mpr]
  · rfl
  · intro p hp
    have := List.of_mem_filter hp
    simpa using this

theorem lookupA_popA_ne {β : Type} (l : List (String × β)) (k k' : String)
    (h : k' ≠ k) : lookupA (popA l k) k' = lookupA l k' := by
  unfold lookupA popA
  induction l with
  | nil => rfl
  | cons a l ih =>
    by_cases ha : a.1 = k
    · rw [List.filter_cons_of_neg (by simpa using ha),
        List.find?_cons_of_neg _ (by simp [ha]; exact fun hk => h hk.symm)]
      exact ih
    · rw [List.filter_cons_of_pos (by simpa using ha)]
      by_cases hk' : a.1 = k'
      · rw [List.find?_cons_of_pos _ (by simpa using hk'),
          List.find?_cons_of_pos _ (by simpa using hk')]
      · rw [List.find?_cons_of_neg _ (by simpa using hk'),
          List.find?_cons_of_neg _ (by simpa using hk')]
        exact ih

theorem memA_eq_isSome_lookupA {β : Type} (l : List (String × β)) (k : String) :
    memA l k = (lookupA l k).isSome := by
  unfold memA lookupA
  induction l with
  | nil => rfl
  | cons a l ih =>
    by_cases ha : a.1 = k
    · rw [List.any_cons, List.find?_cons_of_pos _ (by simpa using ha)]
      simp [ha]
    · rw [List.any_cons, List.find?_cons_of_neg _ (by simpa using ha)]
      simp only [decide_eq_true_eq, ha, decide_False, Bool.false_or]
      exact ih

/-! ## `src/app/rtsp.py` — `RtspManager` -/

/-- Outcome of attempting to stop one external process: `terminate()` and the
bounded `wait` succeed; the wait times out (`subprocess.TimeoutExpired`), after
which the code escalates to `kill()`; or some call raises another exception. -/
inductive TermOutcome where
  | ok
  | timedOut
  | raised
deriving DecidableEq, Repr

/-- Environment of one `apply_config` call: the termination outcome of each
stopped camera's process, and whether the `open`/`Popen` attempt for a
camera id succeeds — `start_camera` wraps both in `try/except`, and on
failure logs the error and leaves the camera out of the table. -/
structure RtspEnv where
  termOutcome : String → TermOutcome
  spawnOk : String → Bool

/-- Camera dictionary from the configuration (`config["cameras"][i]`).
Absent keys are `none`; Python falsy strings are `none` or `some ""`. -/
structure Camera where
  id : Option String
  name : Option String
  rtsp_url : Option String
  enabled : Bool
  width : Option Nat
  height : Option Nat
  fps : Option Nat
deriving DecidableEq, Repr

/-- Configuration dictionary: camera list plus the `hls_root` setting
(already parsed into a path; `none` covers both a missing key and a falsy
value, for `config.get("hls_root") or "hls"`). -/
structure RtspConfig where
  hls_root : Option PyPath
  cameras : List Camera
deriving DecidableEq, Repr

/-- A spawned transcode process: a model process id plus the playlist path the
command was given.  Distinct spawns always get distinct `pid`s. -/
structure SpawnedProc where
  pid : Nat
  playlist_path : PyPath
deriving DecidableEq, Repr

/-- `RtspManager` object state: `self.hls_root`, `self.processes`, plus the
model's fresh-pid counter standing for the operating system's pid source. -/
structure RtspState where
  hls_root : PyPath
  processes : List (String × SpawnedProc)
  nextPid : Nat
deriving DecidableEq, Repr

namespace RtspManager

/-- `RtspManager.__init__`. -/
def init (hls_root : PyPath) (nextPid : Nat) : RtspState :=
  { hls_root := hls_root, processes := [], nextPid := nextPid }

/-- `int(camera.get("width") or 1280)` (falsy → default). -/
def cam_width (cam : Camera) : Nat :=
  match cam.width with
  | none => 1280
  | some 0 => 1280
  | some n => n

/-- `int(camera.get("height") or 720)`. -/
def cam_height (cam : Camera) : Nat :=
  match cam.height with
  | none => 720
  | some 0 => 720
  | some n => n

/-- `int(camera.get("fps") or 15)`. -/
def cam_fps (cam : Camera) : Nat :=
  match cam.fps with
  | none => 15
  | some 0 => 15
  | some n => n

/-- `gop = max(1, fps * 2)`. -/
def cam_gop (cam : Camera) : Nat := max 1 (cam_fps cam * 2)

/-- Python truthiness test `not cam_id` for an optional string. -/
def idFalsy : Option String → Bool
  | none => true
  | some s => s = ""

/-- `start_camera(self, camera)`: no-op when the id is falsy, when the id is
already in `self.processes`, or when the trimmed `rtsp_url` is empty;
otherwise recreates the output directory (filesystem effect), builds the
ffmpeg command for `{hls_root}/{cam_id}/index.m3u8`, and attempts to open
the log file and spawn the process inside `try/except`: on success the
process is recorded under the camera id, on failure the exception is logged
and the table is left unchanged. -/
def start_camera (spawnOk : String → Bool) (st : RtspState) (cam : Camera) :
    RtspState :=
  match cam.id with
  | none => st
  | some cam_id =>
    if cam_id = "" ∨ memA st.processes cam_id = true then st
    else
      let rtsp_url := (pyStrip (cam.rtsp_url.getD ""))
      if rtsp_url = "" then st
      else
        let output_dir := st.hls_root.divS cam_id
        let playlist_path := output_dir.divS "index.m3u8"
        if spawnOk cam_id = true then
          { st with
            processes := st.processes ++ [(cam_id, ⟨st.nextPid, playlist_path⟩)],
            nextPid := st.nextPid + 1 }
        else st

/-- Log/action events emitted while stopping processes, making the
termination outcomes observable in the model. -/
inductive StopEvent where
  | terminated (cam_id : String)
  | killedAfterTimeout (cam_id : String)
  | errorLogged (cam_id : String)
deriving DecidableEq, Repr

/-- The events produced for one camera by the `try/except` body of
`stop_all`'s loop: terminate, then wait with a 5 s bound, kill on
`TimeoutExpired`, log any other exception. -/
def stopEvents (env : String → TermOutcome) (cam_id : String) : List StopEvent :=
  match env cam_id with
  | .ok => [.terminated cam_id]
  | .timedOut => [.terminated cam_id, .killedAfterTimeout cam_id]
  | .raised => [.errorLogged cam_id]

/-- `stop_all(self)`: iterates over a snapshot `list(self.processes.items())`
and, for each entry, attempts termination and pops the key in the `finally`
block regardless of the outcome. -/
def stop_all (env : String → TermOutcome) (st : RtspState) : List StopEvent × RtspState :=
  let snapshot := st.processes
  let final := snapshot.foldl
    (fun (acc : List StopEvent × List (String × SpawnedProc)) entry =>
      (acc.1 ++ stopEvents env entry.1, popA acc.2 entry.1))
    ([], st.processes)
  (final.1, { st with processes := final.2 })

/-- `_resolve_hls_root(self, config)`: parse the configured root (default
`"hls"`), and resolve a relative one against `self.hls_root.parent` — the
parent of the *current* root.  (`mkdir` is a filesystem effect.) -/
def _resolve_hls_root (st : RtspState) (config : RtspConfig) : PyPath :=
  let hls_root := config.hls_root.getD ⟨false, ["hls"]⟩
  if ¬ hls_root.is_absolute then st.hls_root.parent.div hls_root
  else hls_root

/-- One iteration of `apply_config`'s loop: start the camera when its
`enabled` value is truthy. -/
def applyStep (spawnOk : String → Bool) (s : RtspState) (cam : Camera) : RtspState :=
  if cam.enabled = true then start_camera spawnOk s cam else s

/-- `apply_config(self, config)`: stop everything, recompute the root, then
start every camera whose `enabled` value is truthy. -/
def apply_config (env : RtspEnv) (st : RtspState) (config : RtspConfig) :
    RtspState :=
  let st1 := (stop_all env.termOutcome st).2
  let st2 := { st1 with hls_root := _resolve_hls_root st1 config }
  config.cameras.foldl (applyStep env.spawnOk) st2

/-- `ensure_hls_root(config)` from `src/app/config.py`: the same resolution
but against the fixed `BASE_DIR`, given here as an argument. -/
def ensure_hls_root (base_dir : PyPath) (config : RtspConfig) : PyPath :=
  let hls_root := config.hls_root.getD ⟨false, ["hls"]⟩
  if ¬ hls_root.is_absolute then base_dir.div hls_root
  else hls_root

end RtspManager

namespace RtspManager

theorem stop_fold_snd (env : String → TermOutcome) :
    ∀ (l : List (String × SpawnedProc)) (ev : List StopEvent)
      (t : List (String × SpawnedProc)),
    (l.foldl
        (fun (acc : List StopEvent × List (String × SpawnedProc)) entry =>
          (acc.1 ++ stopEvents env entry.1, popA acc.2 entry.1)) (ev, t)).2
      = l.foldl (fun t2 e => popA t2 e.1) t
  | [], _, _ => rfl
  | _ :: l, _, _ => stop_fold_snd env l _ _

theorem mem_foldl_popA :
    ∀ (l t : List (String × SpawnedProc)) (q : String × SpawnedProc),
    q ∈ l.foldl (fun t2 e => popA t2 e.1) t → q ∈ t ∧ ∀ e ∈ l, q.1 ≠ e.1 := by
  intro l
  induction l with
  | nil =>
    intro t q h
    exact ⟨h, fun e he => absurd he (List.not_mem_nil e)⟩
  | cons e l ih =>
    intro t q h
    obtain ⟨hmem, hall⟩ := ih (popA t e.1) q h
    have hmem' := List.mem_filter.mp hmem
    refine ⟨hmem'.1, fun e' he' => ?_⟩
    rcases List.mem_cons.mp he' with he' | he'
    · subst he'
      simpa using hmem'.2
    · exact hall e' he'

theorem stop_all_processes_eq (env : String → TermOutcome) (st : RtspState) :
    ((stop_all env st).2).processes
      = st.processes.foldl (fun t2 e => popA t2 e.1) st.processes := by
  unfold stop_all
  simp only []
  rw [stop_fold_snd]

theorem stop_all_empties (env : String → TermOutcome) (st : RtspState) :
    ((stop_all env st).2).processes = [] := by
  rw [stop_all_processes_eq]
  refine List.eq_nil_iff_forall_not_mem.mpr (fun q hq => ?_)
  obtain ⟨hmem, hall⟩ := mem_foldl_popA st.processes st.processes q hq
  exact hall q hmem rfl

theorem stop_all_hls_root (env : String → TermOutcome) (st : RtspState) :
    ((stop_all env st).2).hls_root = st.hls_root := rfl

theorem stop_all_nextPid (env : String → TermOutcome) (st : RtspState) :
    ((stop_all env st).2).nextPid = st.nextPid := rfl

theorem memA_start_camera (spawnOk : String → Bool) (st : RtspState) (cam : Camera)
    (cid : String) :
    memA (start_camera spawnOk st cam).processes cid = true ↔
      memA st.processes cid = true ∨
        (cam.id = some cid ∧ cid ≠ "" ∧ pyStrip (cam.rtsp_url.getD "") ≠ "" ∧
          spawnOk cid = true) := by
  unfold start_camera
  cases hid : cam.id with
  | none => simp
  | some c =>
    dsimp only
    by_cases hguard : c = "" ∨ memA st.processes c = true
    · rw [if_pos hguard]
      rcases hguard with hc | hmem
      · subst hc
        simp only [Option.some.injEq]
        constructor
        · exact Or.inl
        · rintro (h | ⟨hcid, hne, _, _⟩)
          · exact h
          · exact absurd hcid.symm hne
      · by_cases hcid : cid = c
        · subst hcid
          simp [hmem]
        · have hcc : ¬ (c = cid) := fun h => hcid h.symm
          simp only [Option.some.injEq]
          constructor
          · exact Or.inl
          · rintro (h | ⟨hcid', _, _, _⟩)
            · exact h
            · exact absurd hcid' hcc
    · rw [if_neg hguard]
      push_neg at hguard
      obtain ⟨hc, hmem⟩ := hguard
      by_cases htrim : pyStrip (cam.rtsp_url.getD "") = ""
      · rw [if_pos htrim]
        simp only [Option.some.injEq]
        constructor
        · exact Or.inl
        · rintro (h | ⟨hcid, _, htrim', _⟩)
          · exact h
          · exact absurd htrim htrim'
      · rw [if_neg htrim]
        by_cases hspawn : spawnOk c = true
        · rw [if_pos hspawn]
          simp only [Option.some.injEq]
          unfold memA
          rw [List.any_append]
          simp only [List.any_cons, List.any_nil, Bool.or_false, Bool.or_eq_true,
            decide_eq_true_eq]
          constructor
          · rintro (h | h)
            · exact Or.inl h
            · exact Or.inr ⟨h, fun he => hc (h.trans he), htrim, by
                rw [← h]; exact hspawn⟩
          · rintro (h | ⟨hcid, _, _, _⟩)
            · exact Or.inl h
            · exact Or.inr hcid
        · rw [if_neg hspawn]
          simp only [Option.some.injEq]
          constructor
          · exact Or.inl
          · rintro (h | ⟨hcid, _, _, hsp⟩)
            · exact h
            · exact absurd (by rw [hcid]; exact hsp) hspawn

theorem memA_applyStep (spawnOk : String → Bool) (st : RtspState) (cam : Camera)
    (cid : String) :
    memA (applyStep spawnOk st cam).processes cid = true ↔
      memA st.processes cid = true ∨
        (cam.enabled = true ∧ cam.id = some cid ∧ cid ≠ "" ∧
          pyStrip (cam.rtsp_url.getD "") ≠ "" ∧ spawnOk cid = true) := by
  unfold applyStep
  by_cases hen : cam.enabled = true
  · rw [if_pos hen, memA_start_camera]
    constructor
    · rintro (h | h)
      · exact Or.inl h
      · exact Or.inr ⟨hen, h⟩
    · rintro (h | ⟨_, h⟩)
      · exact Or.inl h
      · exact Or.inr h
  · rw [if_neg hen]
    constructor
    · exact Or.inl
    · rintro (h | ⟨hen', _⟩)
      · exact h
      · exact absurd hen' hen

theorem memA_foldl_applyStep (spawnOk : String → Bool) :
    ∀ (l : List Camera) (st : RtspState) (cid : String),
    memA ((l.foldl (applyStep spawnOk) st).processes) cid = true ↔
      memA st.processes cid = true ∨
        ∃ cam ∈ l, cam.enabled = true ∧ cam.id = some cid ∧ cid ≠ "" ∧
          pyStrip (cam.rtsp_url.getD "") ≠ "" ∧ spawnOk cid = true := by
  intro l
  induction l with
  | nil =>
    intro st cid
    simp
  | cons cam l ih =>
    intro st cid
    rw [List.foldl_cons, ih, memA_applyStep]
    constructor
    · rintro ((h | h) | ⟨cam', hmem, h⟩)
      · exact Or.inl h
      · exact Or.inr ⟨cam, List.mem_cons_self cam l, h⟩
      · exact Or.inr ⟨cam', List.mem_cons_of_mem cam hmem, h⟩
    · rintro (h | ⟨cam', hmem, h⟩)
      · exact Or.inl (Or.inl h)
      · rcases List.mem_cons.mp hmem with he | he
        · exact Or.inl (Or.inr (he ▸ h))
        · exact Or.inr ⟨cam', he, h⟩

end RtspManager

/-- Reading of the key set claimed by the spec sentence "camera ids with
`enabled == true` and non-empty trimmed source URL", taken at the spec's
words (no condition on the id value itself). -/
def specEnabledUrlIds (config : RtspConfig) : List String :=
  config.cameras.filterMap
    (fun cam =>
      if cam.enabled = true ∧ pyStrip (cam.rtsp_url.getD "") ≠ "" then cam.id else none)

namespace RtspManager

/-- A configuration whose only camera is enabled, has a non-empty source
URL, but carries the empty string as its id (a falsy id in Python). -/
def camEmptyId : Camera :=
  { id := some "", name := none, rtsp_url := some "rtsp://host/stream",
    enabled := true, width := none, height := none, fps := none }

def cfgEmptyId : RtspConfig := { hls_root := none, cameras := [camEmptyId] }

def stBase : RtspState := init ⟨true, ["srv", "hls"]⟩ 0

def camOne : Camera :=
  { id := some "cam1", name := some "Front", rtsp_url := some "rtsp://host/one",
    enabled := true, width := none, height := none, fps := none }

def cfgGood : RtspConfig := { hls_root := none, cameras := [camOne] }

/-- Environment in which every stop succeeds and every spawn succeeds. -/
def envAllOk : RtspEnv :=
  { termOutcome := fun _ => .ok, spawnOk := fun _ => true }

/-- Environment in which every spawn attempt fails (the `except` path of
`start_camera`, e.g. the ffmpeg binary is missing). -/
def envSpawnFail : RtspEnv :=
  { termOutcome := fun _ => .ok, spawnOk := fun _ => false }

/-- C1 counterexample, two failure modes of the claimed key-set equality:
on a configuration whose only camera is enabled with source URL
`"rtsp://host/stream"` but id `""`, the claimed key set is `[""]` while
`start_camera` rejects the falsy id and the table stays empty; and on a
well-formed camera `"cam1"` whose spawn attempt fails (the `except` path),
the claimed key set is `["cam1"]` while the table again stays empty. -/
theorem apply_config_spec_key_set_fails :
    (specEnabledUrlIds cfgEmptyId = [""] ∧
      ((apply_config envAllOk stBase cfgEmptyId).processes).map Prod.fst = []) ∧
      (specEnabledUrlIds cfgGood = ["cam1"] ∧
        ((apply_config envSpawnFail stBase cfgGood).processes).map Prod.fst = []) := by
  refine ⟨⟨rfl, rfl⟩, rfl, rfl⟩

/-- C1 (amended): after `apply_config`, the key set of the process table is
exactly the set of *non-falsy* camera ids whose camera is enabled, has a
non-empty trimmed source URL, *and whose spawn attempt succeeded*; in
particular no key from a previous configuration remains. -/
theorem apply_config_key_set (env : RtspEnv) (st : RtspState)
    (config : RtspConfig) (cid : String) :
    memA ((apply_config env st config).processes) cid = true ↔
      ∃ cam ∈ config.cameras, cam.enabled = true ∧ cam.id = some cid ∧ cid ≠ "" ∧
        pyStrip (cam.rtsp_url.getD "") ≠ "" ∧ env.spawnOk cid = true := by
  unfold apply_config
  rw [memA_foldl_applyStep]
  have hempty : ((stop_all env.termOutcome st).2).processes = [] :=
    stop_all_empties env.termOutcome st
  simp [hempty, memA]

/-- C2: `stop_all` always leaves the process table empty, whatever termination
outcome (clean exit, timeout with escalation to kill, or raised exception)
each process's stop attempt has. -/
theorem stop_all_always_empties (env : String → TermOutcome) (st : RtspState) :
    ((stop_all env st).2).processes = [] :=
  stop_all_empties env st

/-- C7: `start_camera` is a no-op — state unchanged, hence no process spawned —
when the camera id is falsy, when the id already has an entry in the process
table, or when the trimmed source URL is empty. -/
theorem start_camera_noop (spawnOk : String → Bool) (st : RtspState) (cam : Camera)
    (h : idFalsy cam.id = true ∨
      (∃ cid, cam.id = some cid ∧ memA st.processes cid = true) ∨
      pyStrip (cam.rtsp_url.getD "") = "") :
    start_camera spawnOk st cam = st := by
  unfold start_camera
  cases hid : cam.id with
  | none => rfl
  | some c =>
    dsimp only
    rcases h with hfalsy | ⟨cid, hcid, hmem⟩ | htrim
    · rw [hid] at hfalsy
      have hc : c = "" := by simpa [idFalsy] using hfalsy
      rw [if_pos (Or.inl hc)]
    · rw [hid] at hcid
      have hc : c = cid := Option.some.injEq _ _ ▸ hcid
      rw [if_pos (Or.inr (hc ▸ hmem))]
    · by_cases hguard : c = "" ∨ memA st.processes c = true
      · rw [if_pos hguard]
      · rw [if_neg hguard, if_pos htrim]

/-- Concrete instance for `start_camera_noop`: a camera whose id is already
in the table. -/
def stOne : RtspState :=
  { hls_root := ⟨true, ["srv", "hls"]⟩,
    processes := [("cam1", ⟨0, ⟨true, ["srv", "hls", "cam1", "index.m3u8"]⟩⟩)],
    nextPid := 1 }

/-- Witness for C7 at a concrete input: `"cam1"` is already running, so
`start_camera` changes nothing. -/
theorem start_camera_noop_witness :
    (idFalsy camOne.id = true ∨
      (∃ cid, camOne.id = some cid ∧ memA stOne.processes cid = true) ∨
      pyStrip (camOne.rtsp_url.getD "") = "") ∧
    start_camera (fun _ => true) stOne camOne = stOne := by
  refine ⟨Or.inr (Or.inl ⟨"cam1", rfl, by decide⟩), ?_⟩
  exact start_camera_noop (fun _ => true) stOne camOne
    (Or.inr (Or.inl ⟨"cam1", rfl, by decide⟩))

/-- State and configuration exhibiting the drifting resolution base: the
manager starts with root `/srv/hls`, and the configuration asks for the
relative root `out/hls`. -/
def cfgRelRoot : RtspConfig :=
  { hls_root := some ⟨false, ["out", "hls"]⟩, cameras := [] }

/-- C8: the resolution base is *not* fixed.  With current root `/srv/hls`
and configured relative root `out/hls`, the first `apply_config` resolves
against `/srv` giving `/srv/out/hls`, but the second resolves against
`/srv/out` giving `/srv/out/out/hls` — while `ensure_hls_root` of
`src/app/config.py`, the fixed-base resolver the spec describes, yields
`/srv/out/hls` every time. -/
theorem resolve_hls_root_base_drifts :
    (apply_config envAllOk stBase cfgRelRoot).hls_root
        = ⟨true, ["srv", "out", "hls"]⟩ ∧
      (apply_config envAllOk (apply_config envAllOk stBase cfgRelRoot)
          cfgRelRoot).hls_root
        = ⟨true, ["srv", "out", "out", "hls"]⟩ ∧
      ensure_hls_root ⟨true, ["srv"]⟩ cfgRelRoot = ⟨true, ["srv", "out", "hls"]⟩ ∧
      ensure_hls_root ⟨true, ["srv"]⟩ cfgRelRoot = ⟨true, ["srv", "out", "hls"]⟩ := by
  refine ⟨rfl, rfl, rfl, rfl⟩

end RtspManager

namespace RtspManager

/-- Key list of the process table. -/
def procKeys (st : RtspState) : List String := st.processes.map Prod.fst

theorem any_map_fst {α β : Type} (f : α → β) (p : β → Bool) :
    ∀ l : List α, (l.map f).any p = l.any (fun a => p (f a))
  | [] => rfl
  | a :: l => by
    rw [List.map_cons, List.any_cons, List.any_cons, any_map_fst f p l]

theorem memA_eq_of_keys_eq {l l' : List (String × SpawnedProc)}
    (h : l.map Prod.fst = l'.map Prod.fst) (k : String) : memA l k = memA l' k := by
  unfold memA
  have h1 : (l.map Prod.fst).any (fun s => decide (s = k))
      = (l'.map Prod.fst).any (fun s => decide (s = k)) := by rw [h]
  rw [any_map_fst, any_map_fst] at h1
  exact h1

theorem keys_start_camera_congr (spawnOk : String → Bool) (st st' : RtspState)
    (cam : Camera) (h : procKeys st = procKeys st') :
    procKeys (start_camera spawnOk st cam)
      = procKeys (start_camera spawnOk st' cam) := by
  unfold start_camera
  cases hid : cam.id with
  | none => exact h
  | some c =>
    dsimp only
    have hmem : memA st.processes c = memA st'.processes c := memA_eq_of_keys_eq h c
    by_cases hguard : c = "" ∨ memA st.processes c = true
    · have hguard' : c = "" ∨ memA st'.processes c = true := by
        rcases hguard with hg | hg
        · exact Or.inl hg
        · exact Or.inr (hmem ▸ hg)
      rw [if_pos hguard, if_pos hguard']
      exact h
    · have hguard' : ¬ (c = "" ∨ memA st'.processes c = true) := by
        intro hg
        rcases hg with hg | hg
        · exact hguard (Or.inl hg)
        · exact hguard (Or.inr (hmem ▸ hg))
      rw [if_neg hguard, if_neg hguard']
      by_cases htrim : pyStrip (cam.rtsp_url.getD "") = ""
      · rw [if_pos htrim, if_pos htrim]
        exact h
      · rw [if_neg htrim, if_neg htrim]
        by_cases hspawn : spawnOk c = true
        · rw [if_pos hspawn, if_pos hspawn]
          unfold procKeys at h ⊢
          simp only [List.map_append, List.map_cons, List.map_nil]
          rw [h]
        · rw [if_neg hspawn, if_neg hspawn]
          exact h

theorem keys_applyStep_congr (spawnOk : String → Bool) (st st' : RtspState)
    (cam : Camera) (h : procKeys st = procKeys st') :
    procKeys (applyStep spawnOk st cam) = procKeys (applyStep spawnOk st' cam) := by
  unfold applyStep
  by_cases hen : cam.enabled = true
  · rw [if_pos hen, if_pos hen]
    exact keys_start_camera_congr spawnOk st st' cam h
  · rw [if_neg hen, if_neg hen]
    exact h

theorem keys_foldl_congr (spawnOk : String → Bool) :
    ∀ (l : List Camera) (st st' : RtspState),
    procKeys st = procKeys st' →
      procKeys (l.foldl (applyStep spawnOk) st)
        = procKeys (l.foldl (applyStep spawnOk) st') := by
  intro l
  induction l with
  | nil => intro st st' h; exact h
  | cons cam l ih =>
    intro st st' h
    rw [List.foldl_cons, List.foldl_cons]
    exact ih _ _ (keys_applyStep_congr spawnOk st st' cam h)

theorem pid_lb_start_camera (spawnOk : String → Bool) (st : RtspState)
    (cam : Camera) (q : String × SpawnedProc)
    (hq : q ∈ (start_camera spawnOk st cam).processes) :
    q ∈ st.processes ∨ st.nextPid ≤ q.2.pid := by
  unfold start_camera at hq
  cases hid : cam.id with
  | none => rw [hid] at hq; exact Or.inl hq
  | some c =>
    rw [hid] at hq
    dsimp only at hq
    by_cases hguard : c = "" ∨ memA st.processes c = true
    · rw [if_pos hguard] at hq; exact Or.inl hq
    · rw [if_neg hguard] at hq
      by_cases htrim : pyStrip (cam.rtsp_url.getD "") = ""
      · rw [if_pos htrim] at hq; exact Or.inl hq
      · rw [if_neg htrim] at hq
        by_cases hspawn : spawnOk c = true
        · rw [if_pos hspawn] at hq
          dsimp only at hq
          rcases List.mem_append.mp hq with hq | hq
          · exact Or.inl hq
          · rcases List.mem_singleton.mp hq with rfl
            exact Or.inr (Nat.le_refl _)
        · rw [if_neg hspawn] at hq
          exact Or.inl hq

theorem nextPid_mono_start_camera (spawnOk : String → Bool) (st : RtspState)
    (cam : Camera) :
    st.nextPid ≤ (start_camera spawnOk st cam).nextPid := by
  unfold start_camera
  cases cam.id with
  | none => exact Nat.le_refl _
  | some c =>
    dsimp only
    by_cases hguard : c = "" ∨ memA st.processes c = true
    · rw [if_pos hguard]
    · rw [if_neg hguard]
      by_cases htrim : pyStrip (cam.rtsp_url.getD "") = ""
      · rw [if_pos htrim]
      · rw [if_neg htrim]
        by_cases hspawn : spawnOk c = true
        · rw [if_pos hspawn]
          exact Nat.le_succ _
        · rw [if_neg hspawn]

theorem pid_lb_applyStep (spawnOk : String → Bool) (st : RtspState) (cam : Camera)
    (q : String × SpawnedProc) (hq : q ∈ (applyStep spawnOk st cam).processes) :
    q ∈ st.processes ∨ st.nextPid ≤ q.2.pid := by
  unfold applyStep at hq
  by_cases hen : cam.enabled = true
  · rw [if_pos hen] at hq; exact pid_lb_start_camera spawnOk st cam q hq
  · rw [if_neg hen] at hq; exact Or.inl hq

theorem nextPid_mono_applyStep (spawnOk : String → Bool) (st : RtspState)
    (cam : Camera) :
    st.nextPid ≤ (applyStep spawnOk st cam).nextPid := by
  unfold applyStep
  by_cases hen : cam.enabled = true
  · rw [if_pos hen]; exact nextPid_mono_start_camera spawnOk st cam
  · rw [if_neg hen]

theorem pid_lb_foldl (spawnOk : String → Bool) :
    ∀ (l : List Camera) (st : RtspState) (q : String × SpawnedProc),
    q ∈ (l.foldl (applyStep spawnOk) st).processes →
      q ∈ st.processes ∨ st.nextPid ≤ q.2.pid := by
  intro l
  induction l with
  | nil => intro st q hq; exact Or.inl hq
  | cons cam l ih =>
    intro st q hq
    rw [List.foldl_cons] at hq
    rcases ih (applyStep spawnOk st cam) q hq with hq' | hq'
    · rcases pid_lb_applyStep spawnOk st cam q hq' with hq'' | hq''
      · exact Or.inl hq''
      · exact Or.inr hq''
    · exact Or.inr (Nat.le_trans (nextPid_mono_applyStep spawnOk st cam) hq')

theorem pid_ub_start_camera (spawnOk : String → Bool) (st : RtspState) (cam : Camera)
    (h : ∀ q ∈ st.processes, q.2.pid < st.nextPid) :
    ∀ q ∈ (start_camera spawnOk st cam).processes,
      q.2.pid < (start_camera spawnOk st cam).nextPid := by
  unfold start_camera
  cases cam.id with
  | none => exact h
  | some c =>
    dsimp only
    by_cases hguard : c = "" ∨ memA st.processes c = true
    · rw [if_pos hguard]; exact h
    · rw [if_neg hguard]
      by_cases htrim : pyStrip (cam.rtsp_url.getD "") = ""
      · rw [if_pos htrim]; exact h
      · rw [if_neg htrim]
        by_cases hspawn : spawnOk c = true
        · rw [if_pos hspawn]
          intro q hq
          dsimp only at hq ⊢
          rcases List.mem_append.mp hq with hq | hq
          · exact Nat.lt_trans (h q hq) (Nat.lt_succ_self _)
          · rcases List.mem_singleton.mp hq with rfl
            exact Nat.lt_succ_self _
        · rw [if_neg hspawn]; exact h

theorem pid_ub_applyStep (spawnOk : String → Bool) (st : RtspState) (cam : Camera)
    (h : ∀ q ∈ st.processes, q.2.pid < st.nextPid) :
    ∀ q ∈ (applyStep spawnOk st cam).processes,
      q.2.pid < (applyStep spawnOk st cam).nextPid := by
  unfold applyStep
  by_cases hen : cam.enabled = true
  · rw [if_pos hen]; exact pid_ub_start_camera spawnOk st cam h
  · rw [if_neg hen]; exact h

theorem pid_ub_foldl (spawnOk : String → Bool) :
    ∀ (l : List Camera) (st : RtspState),
    (∀ q ∈ st.processes, q.2.pid < st.nextPid) →
      ∀ q ∈ (l.foldl (applyStep spawnOk) st).processes,
        q.2.pid < (l.foldl (applyStep spawnOk) st).nextPid := by
  intro l
  induction l with
  | nil => intro st h; exact h
  | cons cam l ih =>
    intro st h
    rw [List.foldl_cons]
    exact ih (applyStep spawnOk st cam) (pid_ub_applyStep spawnOk st cam h)

theorem apply_config_nextPid_base (env : RtspEnv) (st : RtspState)
    (config : RtspConfig) :
    apply_config env st config
      = config.cameras.foldl (applyStep env.spawnOk)
          { hls_root := _resolve_hls_root (stop_all env.termOutcome st).2 config,
            processes := ((stop_all env.termOutcome st).2).processes,
            nextPid := st.nextPid } := rfl

theorem apply_config_keys_of_config (env env' : RtspEnv)
    (st st' : RtspState) (config : RtspConfig)
    (h : env.spawnOk = env'.spawnOk) :
    procKeys (apply_config env st config) = procKeys (apply_config env' st' config) := by
  rw [apply_config_nextPid_base, apply_config_nextPid_base, h]
  apply keys_foldl_congr
  unfold procKeys
  simp [stop_all_empties]

/-- C9 counterexample: with the same configuration applied twice from a
fresh manager, the first call's spawn succeeds (key set `["cam1"]`) and the
second call's spawn attempt fails through the `except` path of
`start_camera` (key set `[]`): the observable key sets after the first and
the second call differ, so the claimed idempotence fails as stated. -/
theorem apply_config_keys_not_idempotent :
    procKeys (apply_config envAllOk stBase cfgGood) = ["cam1"] ∧
      procKeys (apply_config envSpawnFail
        (apply_config envAllOk stBase cfgGood) cfgGood) = [] := by
  constructor <;> rfl

/-- C9 (amended): provided the two calls see the same per-camera spawn
outcomes (in particular whenever every spawn succeeds), calling
`apply_config` twice with the same configuration yields the same
process-table key list after the second call as after the first, while
every process instance recorded by the second call differs from every one
recorded by the first call (the second call's model pids all exceed the
first call's). -/
theorem apply_config_idempotent_keys (env₁ env₂ : RtspEnv)
    (st : RtspState) (config : RtspConfig)
    (henv : env₂.spawnOk = env₁.spawnOk) :
    procKeys (apply_config env₂ (apply_config env₁ st config) config)
        = procKeys (apply_config env₁ st config) ∧
      ∀ q ∈ (apply_config env₂ (apply_config env₁ st config) config).processes,
        ∀ p ∈ (apply_config env₁ st config).processes, q.2.pid ≠ p.2.pid := by
  constructor
  · exact apply_config_keys_of_config env₂ env₁ (apply_config env₁ st config) st
      config henv
  · intro q hq p hp
    have hub : p.2.pid < (apply_config env₁ st config).nextPid := by
      have := pid_ub_foldl env₁.spawnOk config.cameras
        { hls_root := _resolve_hls_root (stop_all env₁.termOutcome st).2 config,
          processes := ((stop_all env₁.termOutcome st).2).processes,
          nextPid := st.nextPid }
        (by
          intro r hr
          rw [stop_all_empties] at hr
          cases hr)
      rw [apply_config_nextPid_base]
      exact this p (by rw [apply_config_nextPid_base] at hp; exact hp)
    have hlb : (apply_config env₁ st config).nextPid ≤ q.2.pid := by
      rw [apply_config_nextPid_base env₂] at hq
      rcases pid_lb_foldl env₂.spawnOk config.cameras _ q hq with hq' | hq'
      · rw [stop_all_empties] at hq'
        cases hq'
      · exact hq'
    exact fun hqp => Nat.lt_irrefl _ (hqp ▸ Nat.lt_of_lt_of_le hub hlb)

end RtspManager

namespace RtspManager

def spFirst : SpawnedProc := ⟨0, ⟨true, ["srv", "hls", "cam1", "index.m3u8"]⟩⟩

def spSecond : SpawnedProc := ⟨1, ⟨true, ["srv", "hls", "cam1", "index.m3u8"]⟩⟩

/-- Witness for the amended C9 at a concrete input: one enabled camera,
applied twice from a fresh manager with all spawns succeeding in both calls;
keys agree, and the two recorded process instances differ. -/
theorem apply_config_idempotent_keys_witness :
    envAllOk.spawnOk = envAllOk.spawnOk ∧
      ("cam1", spSecond) ∈
        (apply_config envAllOk
          (apply_config envAllOk stBase cfgGood) cfgGood).processes ∧
      ("cam1", spFirst) ∈ (apply_config envAllOk stBase cfgGood).processes ∧
      procKeys (apply_config envAllOk
            (apply_config envAllOk stBase cfgGood) cfgGood)
          = procKeys (apply_config envAllOk stBase cfgGood) ∧
      spSecond.pid ≠ spFirst.pid := by
  refine ⟨rfl, by decide, by decide,
    (apply_config_idempotent_keys envAllOk envAllOk stBase cfgGood rfl).1,
    (apply_config_idempotent_keys envAllOk envAllOk stBase cfgGood rfl).2
      ("cam1", spSecond) (by decide) ("cam1", spFirst) (by decide)⟩

end RtspManager

/-! ## `src/app/recorder.py` — `VideoRecorder` -/

/-- Python error raised on access to an attribute the object does not have. -/
inductive PyError where
  | attributeError (name : String)
deriving DecidableEq, Repr

/-- `VideoRecorder` object state: `self.hls_root`, `self.output_dir`,
`self.sessions` (session id → camera id → (process, output path)).
`processes_attr` models the object's `processes` attribute, which no
method of the class ever initialises: `none` means the attribute is absent,
so reading it raises `AttributeError`.  `nextPid` is the model's fresh-pid
counter standing for the operating system's pid source. -/
structure RecState where
  hls_root : PyPath
  output_dir : PyPath
  sessions : List (String × List (String × (Nat × PyPath)))
  processes_attr : Option (List (String × Nat))
  nextPid : Nat
deriving DecidableEq, Repr

namespace VideoRecorder

/-- `VideoRecorder.__init__(hls_root, output_dir=None)`: `self.processes` is
never assigned, so the attribute starts (and stays) absent. -/
def init (hls_root : PyPath) (output_dir : Option PyPath) (nextPid : Nat) : RecState :=
  { hls_root := hls_root,
    output_dir := output_dir.getD ⟨false, ["records"]⟩,
    sessions := [],
    processes_attr := none,
    nextPid := nextPid }

/-- Environment of one `start_recording` call: the generated session id
(`str(uuid.uuid4())[:8]`), the formatted timestamp
(`datetime.now().strftime("%Y%m%d_%H%M%S")`), and the filesystem's answer
to `Path.exists()` during the call. -/
structure StartEnv where
  session_id : String
  timestamp : String
  fileExists : PyPath → Bool

/-- The indefinite-session output filename
`record_{display_name}_{timestamp}_{session_id}.mp4`. -/
def sessionFileName (display_name timestamp session_id : String) : String :=
  "record_" ++ display_name ++ "_" ++ timestamp ++ "_" ++ session_id ++ ".mp4"

/-- One iteration of `start_recording`'s loop over `camera_ids`: skip the
camera when its manifest is missing, otherwise spawn the copy process and
record it in the session's camera map. -/
def startRecStep (env : StartEnv) (cam_name_map : List (String × String))
    (st : RecState) (cam_id : String) : RecState :=
  let hls_m3u8 := (st.hls_root.divS cam_id).divS "index.m3u8"
  if env.fileExists hls_m3u8 = false then st
  else
    let display_name := lookupD cam_name_map cam_id cam_id
    let output_path := st.output_dir.divS
      (sessionFileName display_name env.timestamp env.session_id)
    let cur := (lookupA st.sessions env.session_id).getD []
    { st with
      sessions := setA st.sessions env.session_id
        (setA cur cam_id (st.nextPid, output_path)),
      nextPid := st.nextPid + 1 }

/-- `start_recording(self, camera_ids, cam_name_map=None)`: install the fresh
session id with an empty camera map, then run the loop; returns the id. -/
def start_recording (env : StartEnv) (st : RecState) (camera_ids : List String)
    (cam_name_map : List (String × String)) : String × RecState :=
  let st1 := { st with sessions := setA st.sessions env.session_id [] }
  (env.session_id, camera_ids.foldl (startRecStep env cam_name_map) st1)

/-- Environment of one `stop_recording` call: each camera's termination
outcome and the filesystem's answer to `output_path.exists()` afterwards. -/
structure StopEnv where
  termOutcome : String → TermOutcome
  fileExists : PyPath → Bool

/-- What one camera entry of a stopped session contributes to the result:
nothing when the stop attempt raised, otherwise its output path provided the
file exists. -/
def stopKeep (env : StopEnv) (entry : String × (Nat × PyPath)) :
    Option (String × PyPath) :=
  match env.termOutcome entry.1 with
  | .raised => none
  | _ =>
    if env.fileExists entry.2.2 = true then some (entry.1, entry.2.2) else none

/-- `stop_recording(self, session_id)`: pop the session (empty map default),
then for each of its cameras terminate (kill after a 10 s wait timeout) and
keep the output path when the file exists; a raised exception skips the
camera. -/
def stop_recording (env : StopEnv) (st : RecState) (session_id : String) :
    List (String × PyPath) × RecState :=
  let session := (lookupA st.sessions session_id).getD []
  let st1 := { st with sessions := popA st.sessions session_id }
  let output_paths := session.foldl
    (fun (acc : List (String × PyPath)) entry =>
      match stopKeep env entry with
      | some x => acc ++ [x]
      | none => acc)
    []
  (output_paths, st1)

/-- Failure of one fixed-duration recording: missing manifest
(`FileNotFoundError`), timeout with the process force-killed
(`asyncio.TimeoutError` → `proc.kill()` → `TimeoutError`), or no output
file (`RuntimeError`). -/
inductive RecFail where
  | manifestMissing (cam_id : String)
  | timeoutKilled (cam_id : String)
  | noOutput (cam_id : String)
deriving DecidableEq, Repr

/-- Environment of one `record_cameras` call: the shared timestamp, whether
each manifest/output file exists, and the time in seconds at which each
camera's recording process exits (`none` = never). -/
structure FixedEnv where
  timestamp : String
  manifestExists : PyPath → Bool
  exitTime : String → Option Nat
  outputExists : PyPath → Bool

/-- The fixed-duration output filename `record_{display_name}_{timestamp}.mp4`. -/
def fixedFileName (display_name timestamp : String) : String :=
  "record_" ++ display_name ++ "_" ++ timestamp ++ ".mp4"

/-- `_record_single_camera(self, cam_id, filename, duration_seconds)`:
check the manifest, spawn, await exit with timeout `duration_seconds + 30`
(force-kill and raise on timeout), then require the output file. -/
def _record_single_camera (env : FixedEnv) (st : RecState)
    (cam_id filename : String) (duration_seconds : Nat) : Except RecFail PyPath :=
  let hls_m3u8 := (st.hls_root.divS cam_id).divS "index.m3u8"
  if env.manifestExists hls_m3u8 = false then .error (.manifestMissing cam_id)
  else
    let output_path := st.output_dir.divS filename
    let timeout := duration_seconds + 30
    match env.exitTime cam_id with
    | none => .error (.timeoutKilled cam_id)
    | some t =>
      if timeout < t then .error (.timeoutKilled cam_id)
      else if env.outputExists output_path = true then .ok output_path
      else .error (.noOutput cam_id)

/-- `record_cameras(self, camera_ids, duration_seconds=600, cam_name_map=None)`:
run every per-camera recording (concurrently in the source; the results are
gathered with exceptions kept), then build the result dict from the paths. -/
def record_cameras (env : FixedEnv) (st : RecState) (camera_ids : List String)
    (duration_seconds : Nat) (cam_name_map : List (String × String)) :
    List (String × PyPath) :=
  let results := camera_ids.map (fun cam_id =>
    (cam_id,
      _record_single_camera env st cam_id
        (fixedFileName (lookupD cam_name_map cam_id cam_id) env.timestamp)
        duration_seconds))
  results.foldl
    (fun acc r =>
      match r.2 with
      | .ok p => setA acc r.1 p
      | .error _ => acc)
    []

/-- The first `stop_all` definition (`recorder.py` line 198), iterating over a
snapshot of the session ids; it is shadowed by the second definition below
and unreachable at runtime. -/
def stop_all_shadowed (env : StopEnv) (st : RecState) : RecState :=
  (st.sessions.map Prod.fst).foldl (fun s sid => (stop_recording env s sid).2) st

/-- `stop_camera(self, cam_id)`: its first expression reads
`self.processes`, so on a state where the attribute is absent it raises
`AttributeError` before any other effect. -/
def stop_camera (st : RecState) (cam_id : String) : Except PyError RecState :=
  match st.processes_attr with
  | none => .error (.attributeError "processes")
  | some procs => .ok { st with processes_attr := some (popA procs cam_id) }

/-- The second `stop_all` definition (`recorder.py` line 212), the one the
class actually exposes: it reads `list(self.processes.keys())` first, so it
too raises `AttributeError` when the attribute is absent. -/
def stop_all (st : RecState) : Except PyError RecState :=
  match st.processes_attr with
  | none => .error (.attributeError "processes")
  | some procs =>
    (procs.map Prod.fst).foldl
      (fun acc cam_id =>
        match acc with
        | .error e => .error e
        | .ok s => stop_camera s cam_id)
      (.ok st)

/-- States reachable through the recorder's api from a fresh object.
`record_cameras` reads but never writes object state, and `stop_camera` /
`stop_all` raise before mutating, so they generate no new states. -/
inductive Reachable : RecState → Prop where
  | init (hls_root : PyPath) (output_dir : Option PyPath) (nextPid : Nat) :
      Reachable (init hls_root output_dir nextPid)
  | start (env : StartEnv) (st : RecState) (ids : List String)
      (m : List (String × String)) :
      Reachable st → Reachable (start_recording env st ids m).2
  | stop (env : StopEnv) (st : RecState) (sid : String) :
      Reachable st → Reachable (stop_recording env st sid).2

end VideoRecorder

namespace VideoRecorder

theorem stop_recording_sessions (env : StopEnv) (st : RecState) (sid : String) :
    ((stop_recording env st sid).2).sessions = popA st.sessions sid := rfl

theorem stop_recording_fst_of_none (env : StopEnv) (st : RecState) (sid : String)
    (h : lookupA st.sessions sid = none) : (stop_recording env st sid).1 = [] := by
  unfold stop_recording
  rw [h]
  rfl

/-- C4: the first `stop_recording` call removes the session id from the
active table, and a repeated call with the same id returns an empty file
map — a non-empty result can come only from the first call. -/
theorem stop_recording_twice (env₁ env₂ : StopEnv) (st : RecState) (sid : String) :
    lookupA ((stop_recording env₁ st sid).2).sessions sid = none ∧
      (stop_recording env₂ (stop_recording env₁ st sid).2 sid).1 = [] := by
  have h1 : lookupA ((stop_recording env₁ st sid).2).sessions sid = none := by
    rw [stop_recording_sessions]
    exact lookupA_popA_self st.sessions sid
  exact ⟨h1, stop_recording_fst_of_none env₂ _ sid h1⟩

theorem startRecStep_processes_attr (env : StartEnv)
    (cam_name_map : List (String × String)) (st : RecState) (cam_id : String) :
    (startRecStep env cam_name_map st cam_id).processes_attr = st.processes_attr := by
  unfold startRecStep
  by_cases h : env.fileExists ((st.hls_root.divS cam_id).divS "index.m3u8") = false
  · rw [if_pos h]
  · rw [if_neg h]

theorem foldl_startRecStep_processes_attr (env : StartEnv)
    (cam_name_map : List (String × String)) :
    ∀ (ids : List String) (st : RecState),
    ((ids.foldl (startRecStep env cam_name_map) st)).processes_attr
      = st.processes_attr := by
  intro ids
  induction ids with
  | nil => intro st; rfl
  | cons i ids ih =>
    intro st
    rw [List.foldl_cons, ih, startRecStep_processes_attr]

theorem reachable_processes_attr (st : RecState) (h : Reachable st) :
    st.processes_attr = none := by
  induction h with
  | init hls_root output_dir nextPid => rfl
  | start env st ids m _ ih =>
    show ((start_recording env st ids m).2).processes_attr = none
    unfold start_recording
    dsimp only
    rw [foldl_startRecStep_processes_attr]
    exact ih
  | stop env st sid _ ih =>
    exact ih

/-- C10: on every reachable recorder state the `processes` attribute is
absent (no constructor or operation ever initialises it), so the exposed
`stop_all` — the second, shadowing definition — and `stop_camera` raise
`AttributeError` at their first expression; the exception propagates before
any mutation, so no session process is terminated and the session table is
left unchanged. -/
theorem stop_all_and_stop_camera_raise (st : RecState) (h : Reachable st) :
    stop_all st = .error (.attributeError "processes") ∧
      ∀ cam_id, stop_camera st cam_id = .error (.attributeError "processes") := by
  have hp := reachable_processes_attr st h
  unfold stop_all stop_camera
  rw [hp]
  exact ⟨rfl, fun _ => rfl⟩

/-- Witness for C10 at a fresh recorder object. -/
theorem stop_all_and_stop_camera_raise_witness :
    stop_all (init ⟨true, ["srv", "hls"]⟩ none 0)
        = .error (.attributeError "processes") ∧
      stop_camera (init ⟨true, ["srv", "hls"]⟩ none 0) "cam1"
        = .error (.attributeError "processes") :=
  ⟨(stop_all_and_stop_camera_raise _ (Reachable.init _ _ _)).1,
    (stop_all_and_stop_camera_raise _ (Reachable.init _ _ _)).2 "cam1"⟩

theorem stop_fold_eq_filterMap (env : StopEnv) :
    ∀ (session : List (String × (Nat × PyPath))) (acc : List (String × PyPath)),
    session.foldl
        (fun acc entry =>
          match stopKeep env entry with
          | some x => acc ++ [x]
          | none => acc) acc
      = acc ++ session.filterMap (stopKeep env) := by
  intro session
  induction session with
  | nil => intro acc; simp
  | cons e session ih =>
    intro acc
    rw [List.foldl_cons, List.filterMap_cons]
    cases hk : stopKeep env e with
    | none => rw [ih]
    | some x => rw [ih, List.append_assoc, List.singleton_append]

theorem stop_recording_fst_eq (env : StopEnv) (st : RecState) (sid : String) :
    (stop_recording env st sid).1
      = ((lookupA st.sessions sid).getD []).filterMap (stopKeep env) := by
  unfold stop_recording
  dsimp only
  rw [stop_fold_eq_filterMap]
  rw [List.nil_append]

def outPathX : PyPath := ⟨false, ["records", "record_cam1_20240101_000000_aaaaaaaa.mp4"]⟩

def stSess : RecState :=
  { hls_root := ⟨true, ["srv", "hls"]⟩,
    output_dir := ⟨false, ["records"]⟩,
    sessions := [("aaaaaaaa", [("cam1", (0, outPathX))])],
    processes_attr := none,
    nextPid := 1 }

def envRaise : StopEnv :=
  { termOutcome := fun _ => .raised, fileExists := fun _ => true }

/-- C5 counterexample: in a session whose only camera's stop attempt raises
(say `proc.terminate()` throws an `OSError`), the output file exists on disk,
yet `stop_recording` returns an empty map — so "entry present iff the file
exists" fails as stated. -/
theorem stop_recording_omits_despite_file :
    envRaise.fileExists outPathX = true ∧
      lookupA stSess.sessions "aaaaaaaa" = some [("cam1", (0, outPathX))] ∧
      (stop_recording envRaise stSess "aaaaaaaa").1 = [] :=
  ⟨rfl, by decide, by decide⟩

/-- C5 (amended): for an active session, the file map returned by
`stop_recording` contains an entry for a camera iff the session maps that
camera to a path, the camera's stop attempt did not raise, and that output
file exists on disk; in particular a camera whose process produced no file
is omitted without failing the whole stop, and every returned path exists. -/
theorem stop_recording_result_iff (env : StopEnv) (st : RecState) (sid : String)
    (m : List (String × (Nat × PyPath))) (h : lookupA st.sessions sid = some m)
    (c : String) (p : PyPath) :
    (c, p) ∈ (stop_recording env st sid).1 ↔
      ∃ pid, (c, (pid, p)) ∈ m ∧ env.termOutcome c ≠ TermOutcome.raised ∧
        env.fileExists p = true := by
  rw [stop_recording_fst_eq, h]
  rw [List.mem_filterMap]
  constructor
  · rintro ⟨e, he, hk⟩
    unfold stopKeep at hk
    cases hout : env.termOutcome e.1 with
    | raised => rw [hout] at hk; cases hk
    | ok =>
      rw [hout] at hk
      by_cases hex : env.fileExists e.2.2 = true
      · rw [if_pos hex] at hk
        have hpair : (e.1, e.2.2) = (c, p) := Option.some_inj.mp hk
        have he1 : e.1 = c := congrArg Prod.fst hpair
        have he2 : e.2.2 = p := congrArg Prod.snd hpair
        refine ⟨e.2.1, ?_, ?_, he2 ▸ hex⟩
        · have : e = (c, (e.2.1, p)) := by
            rcases e with ⟨e1, e21, e22⟩
            simp only at he1 he2
            rw [he1, he2]
          exact this ▸ he
        · rw [← he1, hout]
          intro hcon
          cases hcon
      · rw [if_neg hex] at hk
        cases hk
    | timedOut =>
      rw [hout] at hk
      by_cases hex : env.fileExists e.2.2 = true
      · rw [if_pos hex] at hk
        have hpair : (e.1, e.2.2) = (c, p) := Option.some_inj.mp hk
        have he1 : e.1 = c := congrArg Prod.fst hpair
        have he2 : e.2.2 = p := congrArg Prod.snd hpair
        refine ⟨e.2.1, ?_, ?_, he2 ▸ hex⟩
        · have : e = (c, (e.2.1, p)) := by
            rcases e with ⟨e1, e21, e22⟩
            simp only at he1 he2
            rw [he1, he2]
          exact this ▸ he
        · rw [← he1, hout]
          intro hcon
          cases hcon
      · rw [if_neg hex] at hk
        cases hk
  · rintro ⟨pid, hm, hraise, hex⟩
    refine ⟨(c, (pid, p)), hm, ?_⟩
    unfold stopKeep
    dsimp only
    cases hout : env.termOutcome c with
    | raised => exact absurd hout hraise
    | ok => rw [if_pos hex]
    | timedOut => rw [if_pos hex]

def envOkStop : StopEnv :=
  { termOutcome := fun _ => .ok, fileExists := fun _ => true }

/-- Witness for the amended C5 at a concrete session. -/
theorem stop_recording_result_iff_witness :
    lookupA stSess.sessions "aaaaaaaa" = some [("cam1", (0, outPathX))] ∧
      ((("cam1", outPathX) ∈ (stop_recording envOkStop stSess "aaaaaaaa").1) ↔
        ∃ pid, ("cam1", (pid, outPathX)) ∈ [("cam1", (0, outPathX))] ∧
          envOkStop.termOutcome "cam1" ≠ TermOutcome.raised ∧
          envOkStop.fileExists outPathX = true) :=
  ⟨by decide,
    stop_recording_result_iff envOkStop stSess "aaaaaaaa" _ (by decide) "cam1" outPathX⟩

end VideoRecorder

namespace VideoRecorder

/-- The per-camera result of one `record_cameras` call (the awaited
`_record_single_camera` coroutine for that camera). -/
def camResult (env : FixedEnv) (st : RecState) (duration_seconds : Nat)
    (cam_name_map : List (String × String)) (cam_id : String) :
    Except RecFail PyPath :=
  _record_single_camera env st cam_id
    (fixedFileName (lookupD cam_name_map cam_id cam_id) env.timestamp)
    duration_seconds

theorem record_cameras_eq_fold (env : FixedEnv) (st : RecState)
    (camera_ids : List String) (duration_seconds : Nat)
    (cam_name_map : List (String × String)) :
    record_cameras env st camera_ids duration_seconds cam_name_map
      = (camera_ids.map
          (fun i => (i, camResult env st duration_seconds cam_name_map i))).foldl
          (fun acc r =>
            match r.2 with
            | .ok p => setA acc r.1 p
            | .error _ => acc)
          [] := rfl

theorem lookup_resfold_not_mem (R : String → Except RecFail PyPath) :
    ∀ (ids : List String) (acc : List (String × PyPath)) (c : String), c ∉ ids →
    lookupA ((ids.map (fun i => (i, R i))).foldl
        (fun acc r =>
          match r.2 with
          | .ok p => setA acc r.1 p
          | .error _ => acc)
        acc) c
      = lookupA acc c := by
  intro ids
  induction ids with
  | nil => intro acc c _; rfl
  | cons i ids ih =>
    intro acc c hc
    have hci : c ≠ i := fun h => hc (h ▸ List.mem_cons_self i ids)
    have hcids : c ∉ ids := fun h => hc (List.mem_cons_of_mem i h)
    rw [List.map_cons, List.foldl_cons]
    cases hR : R i with
    | ok p =>
      rw [ih _ c hcids, lookupA_setA_ne _ _ _ _ hci]
    | error e =>
      exact ih _ c hcids

theorem lookup_resfold_err (R : String → Except RecFail PyPath) :
    ∀ (ids : List String) (acc : List (String × PyPath)) (c : String),
    (∀ p, R c ≠ .ok p) →
    lookupA ((ids.map (fun i => (i, R i))).foldl
        (fun acc r =>
          match r.2 with
          | .ok p => setA acc r.1 p
          | .error _ => acc)
        acc) c
      = lookupA acc c := by
  intro ids
  induction ids with
  | nil => intro acc c _; rfl
  | cons i ids ih =>
    intro acc c herr
    rw [List.map_cons, List.foldl_cons]
    cases hR : R i with
    | ok p =>
      have hci : c ≠ i := by
        intro h
        exact herr p (h ▸ hR)
      rw [ih _ c herr, lookupA_setA_ne _ _ _ _ hci]
    | error e =>
      exact ih _ c herr

theorem lookup_resfold_ok (R : String → Except RecFail PyPath) :
    ∀ (ids : List String) (acc : List (String × PyPath)) (c : String) (p : PyPath),
    R c = .ok p → c ∈ ids →
    lookupA ((ids.map (fun i => (i, R i))).foldl
        (fun acc r =>
          match r.2 with
          | .ok p => setA acc r.1 p
          | .error _ => acc)
        acc) c
      = some p := by
  intro ids
  induction ids with
  | nil => intro acc c p _ hc; cases hc
  | cons i ids ih =>
    intro acc c p hok hc
    rw [List.map_cons, List.foldl_cons]
    by_cases hcids : c ∈ ids
    · exact ih _ c p hok hcids
    · have hci : c = i := by
        rcases List.mem_cons.mp hc with h | h
        · exact h
        · exact absurd h hcids
      subst hci
      rw [hok]
      dsimp only
      rw [lookup_resfold_not_mem R ids _ c hcids, lookupA_setA_self]

/-- C6: in a `record_cameras` call with duration `d`, a camera whose process
does not exit within `d + 30` seconds is force-killed (the
`RecFail.timeoutKilled` branch) and is absent from the result map, while
every sibling camera in the same call whose manifest exists, whose process
exits within `d + 30` seconds, and whose output file exists is present with
its output path. -/
theorem record_cameras_timeout_isolated (env : FixedEnv) (st : RecState)
    (camera_ids : List String) (d : Nat) (cam_name_map : List (String × String))
    (slow fast : String)
    (_hslow_mem : slow ∈ camera_ids)
    (hslow : ∀ t, env.exitTime slow = some t → d + 30 < t)
    (hfast_mem : fast ∈ camera_ids)
    (hfast_manifest :
      env.manifestExists ((st.hls_root.divS fast).divS "index.m3u8") = true)
    (hfast_exit : ∃ t, env.exitTime fast = some t ∧ t ≤ d + 30)
    (hfast_out :
      env.outputExists (st.output_dir.divS
        (fixedFileName (lookupD cam_name_map fast fast) env.timestamp)) = true) :
    lookupA (record_cameras env st camera_ids d cam_name_map) slow = none ∧
      lookupA (record_cameras env st camera_ids d cam_name_map) fast
        = some (st.output_dir.divS
            (fixedFileName (lookupD cam_name_map fast fast) env.timestamp)) := by
  rw [record_cameras_eq_fold]
  constructor
  · rw [lookup_resfold_err (camResult env st d cam_name_map) camera_ids [] slow]
    · rfl
    · intro p hok
      unfold camResult _record_single_camera at hok
      by_cases hman :
          env.manifestExists ((st.hls_root.divS slow).divS "index.m3u8") = false
      · rw [if_pos hman] at hok
        cases hok
      · rw [if_neg hman] at hok
        dsimp only at hok
        cases het : env.exitTime slow with
        | none => rw [het] at hok; cases hok
        | some t =>
          rw [het] at hok
          dsimp only at hok
          have hlt : d + 30 < t := hslow t het
          rw [if_pos hlt] at hok
          cases hok
  · obtain ⟨t, het, hle⟩ := hfast_exit
    apply lookup_resfold_ok (camResult env st d cam_name_map) camera_ids [] fast
    · unfold camResult _record_single_camera
      rw [if_neg (by rw [hfast_manifest]; intro h; cases h), het]
      dsimp only
      rw [if_neg (Nat.not_lt.mpr hle), if_pos hfast_out]
    · exact hfast_mem

def envFixed : FixedEnv :=
  { timestamp := "20240101_000000",
    manifestExists := fun _ => true,
    exitTime := fun c => if c = "cam1" then none else some 9,
    outputExists := fun _ => true }

def stRec : RecState := init ⟨true, ["srv", "hls"]⟩ none 0

/-- Witness for C6 at a concrete input: `cam1` never exits (killed, absent),
`cam2` exits after 9 s of a 10 s recording and its file exists (present). -/
theorem record_cameras_timeout_isolated_witness :
    ("cam1" ∈ ["cam1", "cam2"]) ∧
      lookupA (record_cameras envFixed stRec ["cam1", "cam2"] 10 []) "cam1" = none ∧
      lookupA (record_cameras envFixed stRec ["cam1", "cam2"] 10 []) "cam2"
        = some (stRec.output_dir.divS
            (fixedFileName (lookupD [] "cam2" "cam2") envFixed.timestamp)) := by
  refine ⟨by decide, ?_⟩
  have h := record_cameras_timeout_isolated envFixed stRec ["cam1", "cam2"] 10 []
    "cam1" "cam2" (by decide)
    (by intro t ht; cases ht)
    (by decide) (by decide) ⟨9, rfl, by decide⟩ (by decide)
  exact ⟨h.1, h.2⟩

end VideoRecorder

theorem string_append_inj_right {a b u v : String}
    (hlen : u.length = v.length) (h : a ++ u = b ++ v) : u = v := by
  have hd : a.data ++ u.data = b.data ++ v.data := by
    rw [← String.data_append, ← String.data_append, h]
  have hlen' : u.data.length = v.data.length := hlen
  exact String.ext (List.append_inj' hd hlen').2

theorem string_append_cancel_right {a b u : String} (h : a ++ u = b ++ u) : a = b := by
  have hd : a.data ++ u.data = b.data ++ u.data := by
    rw [← String.data_append, ← String.data_append, h]
  exact String.ext (List.append_cancel_right hd)

theorem mem_setA {β : Type} {l : List (String × β)} {k : String} {v : β}
    {x : String × β} (h : x ∈ setA l k v) : x ∈ l ∨ x = (k, v) := by
  unfold setA at h
  split at h
  · rcases List.mem_map.mp h with ⟨p, hp, he⟩
    by_cases hpk : p.1 = k
    · rw [if_pos hpk] at he
      exact Or.inr he.symm
    · rw [if_neg hpk] at he
      exact Or.inl (he ▸ hp)
  · rcases List.mem_append.mp h with h | h
    · exact Or.inl h
    · exact Or.inr (List.mem_singleton.mp h)

namespace VideoRecorder

theorem sessionFileName_inj_sid {n₁ t₁ s₁ n₂ t₂ s₂ : String}
    (hlen : s₁.length = s₂.length)
    (h : sessionFileName n₁ t₁ s₁ = sessionFileName n₂ t₂ s₂) : s₁ = s₂ := by
  unfold sessionFileName at h
  exact string_append_inj_right hlen (string_append_cancel_right h)

theorem startRecStep_output_dir (env : StartEnv)
    (cam_name_map : List (String × String)) (st : RecState) (cam_id : String) :
    (startRecStep env cam_name_map st cam_id).output_dir = st.output_dir := by
  unfold startRecStep
  by_cases h : env.fileExists ((st.hls_root.divS cam_id).divS "index.m3u8") = false
  · rw [if_pos h]
  · rw [if_neg h]

theorem foldl_startRecStep_output_dir (env : StartEnv)
    (cam_name_map : List (String × String)) :
    ∀ (ids : List String) (st : RecState),
    ((ids.foldl (startRecStep env cam_name_map) st)).output_dir = st.output_dir := by
  intro ids
  induction ids with
  | nil => intro st; rfl
  | cons i ids ih =>
    intro st
    rw [List.foldl_cons, ih, startRecStep_output_dir]

theorem start_recording_output_dir (env : StartEnv) (st : RecState)
    (ids : List String) (m : List (String × String)) :
    ((start_recording env st ids m).2).output_dir = st.output_dir := by
  unfold start_recording
  dsimp only
  rw [foldl_startRecStep_output_dir]

theorem lookupA_startRecStep_ne (env : StartEnv)
    (cam_name_map : List (String × String)) (st : RecState) (cam_id : String)
    (sid : String) (h : sid ≠ env.session_id) :
    lookupA (startRecStep env cam_name_map st cam_id).sessions sid
      = lookupA st.sessions sid := by
  unfold startRecStep
  by_cases hfe : env.fileExists ((st.hls_root.divS cam_id).divS "index.m3u8") = false
  · rw [if_pos hfe]
  · rw [if_neg hfe]
    dsimp only
    exact lookupA_setA_ne _ _ _ _ h

theorem foldl_startRecStep_ne (env : StartEnv)
    (cam_name_map : List (String × String)) (sid : String)
    (h : sid ≠ env.session_id) :
    ∀ (ids : List String) (st : RecState),
    lookupA ((ids.foldl (startRecStep env cam_name_map) st)).sessions sid
      = lookupA st.sessions sid := by
  intro ids
  induction ids with
  | nil => intro st; rfl
  | cons i ids ih =>
    intro st
    rw [List.foldl_cons, ih, lookupA_startRecStep_ne env cam_name_map st i sid h]

theorem lookupA_start_recording_ne (env : StartEnv) (st : RecState)
    (ids : List String) (m : List (String × String)) (sid : String)
    (h : sid ≠ env.session_id) :
    lookupA ((start_recording env st ids m).2).sessions sid
      = lookupA st.sessions sid := by
  unfold start_recording
  dsimp only
  rw [foldl_startRecStep_ne env m sid h]
  exact lookupA_setA_ne _ _ _ _ h

/-- Every camera entry of a session map carries an output path of the form
`{dir}/record_{name}_{timestamp}_{sid}.mp4`. -/
def taggedSession (dir : PyPath) (timestamp sid : String)
    (m : List (String × (Nat × PyPath))) : Prop :=
  ∀ e ∈ m, ∃ name, e.2.2 = dir.divS (sessionFileName name timestamp sid)

theorem start_fold_tagged (env : StartEnv) (cam_name_map : List (String × String))
    (dir : PyPath) :
    ∀ (ids : List String) (st : RecState) (sm : List (String × (Nat × PyPath))),
    st.output_dir = dir →
    lookupA st.sessions env.session_id = some sm →
    taggedSession dir env.timestamp env.session_id sm →
    ∃ sm',
      lookupA ((ids.foldl (startRecStep env cam_name_map) st)).sessions
          env.session_id = some sm' ∧
        taggedSession dir env.timestamp env.session_id sm' := by
  intro ids
  induction ids with
  | nil => intro st sm _ h ht; exact ⟨sm, h, ht⟩
  | cons c ids ih =>
    intro st sm hdir h ht
    rw [List.foldl_cons]
    by_cases hfe : env.fileExists ((st.hls_root.divS c).divS "index.m3u8") = false
    · have hstep : startRecStep env cam_name_map st c = st := by
        unfold startRecStep
        rw [if_pos hfe]
      rw [hstep]
      exact ih st sm hdir h ht
    · have hsessions : (startRecStep env cam_name_map st c).sessions
          = setA st.sessions env.session_id
              (setA sm c
                (st.nextPid,
                  st.output_dir.divS
                    (sessionFileName (lookupD cam_name_map c c) env.timestamp
                      env.session_id))) := by
        unfold startRecStep
        rw [if_neg hfe]
        dsimp only
        rw [h]
        rfl
      refine ih (startRecStep env cam_name_map st c) _
        (by rw [startRecStep_output_dir]; exact hdir)
        (by rw [hsessions]; exact lookupA_setA_self _ _ _) ?_
      intro e he
      rcases mem_setA he with he' | he'
      · exact ht e he'
      · refine ⟨lookupD cam_name_map c c, ?_⟩
        rw [he', ← hdir]

theorem start_recording_active_tagged (env : StartEnv) (st : RecState)
    (ids : List String) (m : List (String × String)) :
    ∃ sm,
      lookupA ((start_recording env st ids m).2).sessions env.session_id = some sm ∧
        taggedSession st.output_dir env.timestamp env.session_id sm := by
  unfold start_recording
  dsimp only
  exact start_fold_tagged env m st.output_dir ids _ [] rfl
    (lookupA_setA_self _ _ _) (fun e he => absurd he (List.not_mem_nil e))

/-- C3: if the second generated session id is fresh (not active after the
first `start_recording`, modelling the uniqueness of `uuid.uuid4()` prefixes
among live sessions) and both ids have the same length (both are 8-character
uuid prefixes), then the two active sessions have distinct identifiers, and
any camera recorded by both sessions gets two distinct output file paths —
each path embeds its session's timestamp and id. -/
theorem start_recording_distinct_sessions (env₁ env₂ : StartEnv) (st : RecState)
    (ids₁ ids₂ : List String) (m₁ m₂ : List (String × String))
    (hfresh₂ :
      lookupA ((start_recording env₁ st ids₁ m₁).2).sessions env₂.session_id
        = none)
    (hlen : env₁.session_id.length = env₂.session_id.length) :
    env₁.session_id ≠ env₂.session_id ∧
      ∀ (sm₁ sm₂ : List (String × (Nat × PyPath))) (cam : String)
        (pid₁ pid₂ : Nat) (p₁ p₂ : PyPath),
        lookupA ((start_recording env₂ ((start_recording env₁ st ids₁ m₁).2)
            ids₂ m₂).2).sessions env₁.session_id = some sm₁ →
        lookupA ((start_recording env₂ ((start_recording env₁ st ids₁ m₁).2)
            ids₂ m₂).2).sessions env₂.session_id = some sm₂ →
        (cam, (pid₁, p₁)) ∈ sm₁ → (cam, (pid₂, p₂)) ∈ sm₂ → p₁ ≠ p₂ := by
  obtain ⟨sm1, hsm1, htag1⟩ := start_recording_active_tagged env₁ st ids₁ m₁
  have hne : env₁.session_id ≠ env₂.session_id := by
    intro he
    rw [← he] at hfresh₂
    rw [hfresh₂] at hsm1
    cases hsm1
  refine ⟨hne, ?_⟩
  intro sm₁ sm₂ cam pid₁ pid₂ p₁ p₂ h₁ h₂ hm₁ hm₂
  have hpres :
      lookupA ((start_recording env₂ ((start_recording env₁ st ids₁ m₁).2)
          ids₂ m₂).2).sessions env₁.session_id
        = lookupA ((start_recording env₁ st ids₁ m₁).2).sessions
            env₁.session_id :=
    lookupA_start_recording_ne env₂ _ ids₂ m₂ env₁.session_id hne
  rw [hpres, hsm1] at h₁
  have hsm₁eq : sm₁ = sm1 := (Option.some_inj.mp h₁).symm
  obtain ⟨sm2, hsm2, htag2⟩ :=
    start_recording_active_tagged env₂ ((start_recording env₁ st ids₁ m₁).2)
      ids₂ m₂
  rw [hsm2] at h₂
  have hsm₂eq : sm₂ = sm2 := (Option.some_inj.mp h₂).symm
  have ht1 := htag1 (cam, (pid₁, p₁)) (hsm₁eq ▸ hm₁)
  have ht2 := htag2 (cam, (pid₂, p₂)) (hsm₂eq ▸ hm₂)
  rw [start_recording_output_dir] at ht2
  obtain ⟨n₁, hp₁⟩ := ht1
  obtain ⟨n₂, hp₂⟩ := ht2
  intro hpp
  dsimp only at hp₁ hp₂
  rw [hp₁, hp₂] at hpp
  exact hne (sessionFileName_inj_sid hlen (PyPath.divS_inj_right hpp))

def envStartA : StartEnv :=
  { session_id := "aaaaaaaa", timestamp := "20240101_000000",
    fileExists := fun _ => true }

def envStartB : StartEnv :=
  { session_id := "bbbbbbbb", timestamp := "20240101_000100",
    fileExists := fun _ => true }

def wPathA : PyPath :=
  ⟨false, ["records", "record_cam1_20240101_000000_aaaaaaaa.mp4"]⟩

def wPathB : PyPath :=
  ⟨false, ["records", "record_cam1_20240101_000100_bbbbbbbb.mp4"]⟩

/-- Witness for C3 at a concrete input: two sessions over the same camera,
from a fresh recorder; ids differ and the two output paths differ. -/
theorem start_recording_distinct_sessions_witness :
    lookupA ((start_recording envStartA stRec ["cam1"] []).2).sessions
        "bbbbbbbb" = none ∧
      String.length "aaaaaaaa" = String.length "bbbbbbbb" ∧
      "aaaaaaaa" ≠ "bbbbbbbb" ∧ wPathA ≠ wPathB := by
  have h := start_recording_distinct_sessions envStartA envStartB stRec
    ["cam1"] ["cam1"] [] [] (by decide) (by decide)
  exact ⟨by decide, by decide, h.1,
    h.2 [("cam1", (0, wPathA))] [("cam1", (1, wPathB))] "cam1" 0 1 wPathA wPathB
      (by decide) (by decide) (by decide) (by decide)⟩

end VideoRecorder
